import Mathlib

/-!
Verification of the shorts-cutter batch video-processing engine.

The Rust sources are embedded shallowly:
- paths (std::path::Path / PathBuf) become lists of path components
  (strings), with file_stem / extension computed by the Rust splitting
  rules on the final component;
- durations (std::time::Duration) become natural numbers of milliseconds;
- fallible functions returning Result become functions into Except;
- effects of the operating system (does the input file exist, what did the
  spawned ffmpeg process do) become explicit parameters of the embedded
  functions;
- the tokio semaphore / task machinery of the worker pool becomes a
  transition system on abstract pool states plus a result relation that
  quantifies over the arrival order of the fan-in channel.
-/

/-! ## Basic model types -/

/-- Durations are modelled as natural numbers of milliseconds. -/
abbrev Duration := Nat

/-- Paths are modelled as lists of path components; the final component,
when present, is the file name. -/
abbrev RustPath := List String

/-- Model of Path::file_name: the final component of the path. -/
def pathFileName (p : RustPath) : Option String := p.getLast?

/-- Index of the last occurrence of a dot in a character list, if any. -/
def lastDotIdx : List Char → Option Nat
  | [] => none
  | c :: t =>
    match lastDotIdx t with
    | some i => some (i + 1)
    | none => if c == '.' then some 0 else none

/-- Rust file-name splitting: the stem is the part before the final dot and
the extension the part after it, except that a name with no dot, or whose
only dot is leading (hidden files like .gitignore), is all stem with no
extension. -/
def splitFileName (name : String) : String × Option String :=
  let cs := name.toList
  match lastDotIdx cs with
  | none => (name, none)
  | some 0 => (name, none)
  | some i => (String.mk (cs.take i), some (String.mk (cs.drop (i + 1))))

/-- Model of Path::file_stem. -/
def pathFileStem (p : RustPath) : Option String :=
  (pathFileName p).map (fun n => (splitFileName n).1)

/-- Model of Path::extension. -/
def pathExtension (p : RustPath) : Option String :=
  (pathFileName p).bind (fun n => (splitFileName n).2)

/-- Model of Path::join with a single file-name component. -/
def pathJoin (p : RustPath) (child : String) : RustPath := p ++ [child]

/-! ## config.rs constants -/

/-- Constant OUTPUT_SUFFIX from config.rs. -/
def OUTPUT_SUFFIX : String := "-short"

/-- Constant FFMPEG_TIMEOUT from config.rs: 10 minutes, in milliseconds. -/
def FFMPEG_TIMEOUT : Duration := 10 * 60 * 1000

/-- Duration::as_secs on the millisecond model. -/
def durationAsSecs (d : Duration) : Nat := d / 1000

/-- Constant MAX_THREADS from config.rs. -/
def MAX_THREADS : Nat := 32

namespace exit_codes

/-- Exit code exit_codes::SUCCESS from config.rs. -/
def SUCCESS : Int := 0

/-- Exit code exit_codes::CRITICAL_ERROR from config.rs. -/
def CRITICAL_ERROR : Int := 1

/-- Exit code for partial success from config.rs (source constant name
PARTIAL_SUCCESS, shortened here). -/
def PART_SUCCESS : Int := 2

end exit_codes

/-! ## utils.rs: generate_output_path -/

/-- Translation of utils.rs generate_output_path: stem (fallback "unknown")
plus OUTPUT_SUFFIX plus "." plus extension (fallback "mp4"), joined under
the output directory. -/
def generate_output_path (input_path : RustPath) (output_dir : RustPath) : RustPath :=
  let input_filename := (pathFileStem input_path).getD "unknown"
  let input_extension := (pathExtension input_path).getD "mp4"
  let output_filename := input_filename ++ OUTPUT_SUFFIX ++ "." ++ input_extension
  pathJoin output_dir output_filename

/-- C9: generate_output_path is deterministic, and when the input has a
stem and an extension the result is that stem plus the fixed suffix plus
that extension, placed under the output directory. -/
theorem generate_output_path_pure (input outDir : RustPath) (stem ext : String)
    (hs : pathFileStem input = some stem) (he : pathExtension input = some ext) :
    generate_output_path input outDir = generate_output_path input outDir ∧
    generate_output_path input outDir
      = pathJoin outDir (stem ++ OUTPUT_SUFFIX ++ "." ++ ext) := by
  refine ⟨rfl, ?_⟩
  simp [generate_output_path, hs, he]

/-- Witness for C9 at a concrete input. -/
theorem generate_output_path_pure_witness :
    generate_output_path ["dir", "video.mp4"] ["out"]
        = generate_output_path ["dir", "video.mp4"] ["out"] ∧
    generate_output_path ["dir", "video.mp4"] ["out"]
        = pathJoin ["out"] ("video" ++ OUTPUT_SUFFIX ++ "." ++ "mp4") :=
  generate_output_path_pure ["dir", "video.mp4"] ["out"] "video" "mp4"
    (by decide) (by decide)

/-- C10: generate_output_path is total: a missing stem falls back to
"unknown", a missing extension falls back to "mp4", and the produced file
name always has the form stem ++ "-short" ++ "." ++ extension. -/
theorem generate_output_path_total (input outDir : RustPath) :
    (pathFileStem input = none →
      generate_output_path input outDir
        = pathJoin outDir ("unknown" ++ OUTPUT_SUFFIX ++ "."
            ++ (pathExtension input).getD "mp4")) ∧
    (pathExtension input = none →
      generate_output_path input outDir
        = pathJoin outDir ((pathFileStem input).getD "unknown"
            ++ OUTPUT_SUFFIX ++ "." ++ "mp4")) ∧
    OUTPUT_SUFFIX = "-short" ∧
    (∃ stem ext, generate_output_path input outDir
        = pathJoin outDir (stem ++ "-short" ++ "." ++ ext)) := by
  refine ⟨?_, ?_, rfl, ?_⟩
  · intro h; simp [generate_output_path, h]
  · intro h; simp [generate_output_path, h]
  · exact ⟨(pathFileStem input).getD "unknown", (pathExtension input).getD "mp4", rfl⟩

/-- Witness for C10 at a path with no file name, hence no stem and no
extension. -/
theorem generate_output_path_total_witness :
    generate_output_path [] ["out"]
      = pathJoin ["out"] ("unknown" ++ OUTPUT_SUFFIX ++ "."
          ++ (pathExtension []).getD "mp4") :=
  (generate_output_path_total [] ["out"]).1 rfl

/-! ## ffmpeg.rs: stderr diagnostic extraction -/

/-- Whether the character list needle occurs at the start of hay. -/
def listStarts : List Char → List Char → Bool
  | [], _ => true
  | _ :: _, [] => false
  | a :: as, b :: bs => a == b && listStarts as bs

/-- Whether the character list needle occurs anywhere inside hay. -/
def listHasSub (needle : List Char) : List Char → Bool
  | [] => listStarts needle []
  | c :: t => listStarts needle (c :: t) || listHasSub needle t

/-- Model of str::contains with a string pattern. -/
def strContains (s pat : String) : Bool := listHasSub pat.toList s.toList

/-- Lowercasing a string, character by character. -/
def strToLower (s : String) : String := String.mk (s.toList.map Char.toLower)

/-- Splitting a character list at line feeds; the separators are consumed
and the piece after the last line feed is kept even when empty. -/
def splitOnNewline : List Char → List (List Char)
  | [] => [[]]
  | c :: t =>
    if c == '\n' then [] :: splitOnNewline t
    else
      match splitOnNewline t with
      | [] => [[c]]
      | l :: ls => (c :: l) :: ls

/-- Dropping one trailing carriage return, for \r\n line endings. -/
def stripTrailingCR (l : List Char) : List Char :=
  match l.getLast? with
  | some c => if c == '\r' then l.dropLast else l
  | none => l

/-- Model of str::lines: split on line feeds, strip the carriage return of
\r\n endings, and drop the final piece when it is empty (that is, when the
text ends with a line terminator). -/
def rustLines (s : String) : List String :=
  let parts := splitOnNewline s.toList
  let body := parts.dropLast.map (fun cs => String.mk (stripTrailingCR cs))
  match parts.getLast? with
  | some [] => body
  | some l => body ++ [String.mk l]
  | none => body

/-- Line filter used by extract_ffmpeg_error in ffmpeg.rs: the lowercase
form contains one of the error tokens, or both parts of the no-such-file
message. -/
def lineMatches (line : String) : Bool :=
  let l := strToLower line
  strContains l "error" ||
  strContains l "failed" ||
  strContains l "invalid" ||
  strContains l "cannot" ||
  (strContains l "no such file" && strContains l "directory")

/-- Translation of ffmpeg.rs extract_ffmpeg_error: filter the last 10
lines of stderr, walked in reverse; if nothing matches fall back to the
last 3 raw lines; either way undo the reversal and join with " | ". -/
def extract_ffmpeg_error (stderr : String) : String :=
  let error_lines := ((rustLines stderr).reverse.take 10).filter lineMatches
  if error_lines.isEmpty then
    String.intercalate " | " ((rustLines stderr).reverse.take 3).reverse
  else
    String.intercalate " | " error_lines.reverse

/-- Modelled from the spec, section 4.1: keep the matching lines among the
last 10 lines in original order; if none matches take the last 3 raw lines
in original order; join with " | ". -/
def extract_diagnostic_spec (stderr : String) : String :=
  let lns := rustLines stderr
  let ms := (lns.rtake 10).filter lineMatches
  if ms.isEmpty then
    String.intercalate " | " (lns.rtake 3)
  else
    String.intercalate " | " ms

/-- Taking from a reversed list is reverse of taking from the tail. -/
theorem reverse_take_eq_rtake_reverse (l : List String) (n : Nat) :
    l.reverse.take n = (l.rtake n).reverse := by
  rw [List.rtake_eq_reverse_take_reverse, List.reverse_reverse]

/-- Reversal does not change emptiness of a list. -/
theorem reverse_isEmpty (l : List String) : l.reverse.isEmpty = l.isEmpty := by
  cases h : l.reverse with
  | nil =>
    have : l = [] := by
      have := congrArg List.reverse h
      simpa using this
    simp [this]
  | cons a t =>
    have : l ≠ [] := by
      intro hl
      rw [hl] at h
      exact List.noConfusion h
    cases l with
    | nil => exact absurd rfl this
    | cons b u => simp [List.isEmpty, h]

/-- C4: extract_ffmpeg_error agrees with the spec description of the
diagnostic-extraction heuristic on every stderr text. -/
theorem extract_ffmpeg_error_eq_spec (stderr : String) :
    extract_ffmpeg_error stderr = extract_diagnostic_spec stderr := by
  unfold extract_ffmpeg_error extract_diagnostic_spec
  dsimp only
  rw [reverse_take_eq_rtake_reverse, reverse_take_eq_rtake_reverse,
    List.filter_reverse, List.reverse_reverse, reverse_isEmpty,
    List.reverse_reverse]

/-! ## logger.rs: ProcessingSummary and exit codes -/

/-- Counters of logger.rs ProcessingSummary that determine the exit code. -/
structure ProcessingSummary where
  successful : Nat
  failed : Nat
deriving DecidableEq

/-- Translation of ProcessingSummary::exit_code from logger.rs, matching
on the pair of counters exactly as the source does. -/
def ProcessingSummary.exit_code (s : ProcessingSummary) : Int :=
  match s.successful, s.failed with
  | 0, 0 => exit_codes.CRITICAL_ERROR
  | _ + 1, 0 => exit_codes.SUCCESS
  | 0, _ + 1 => exit_codes.CRITICAL_ERROR
  | _ + 1, _ + 1 => exit_codes.PART_SUCCESS

/-- C2: the exit classification follows the exact four-quadrant table, and
the three codes are 0, 1 and 2. -/
theorem exit_code_quadrants (s : ProcessingSummary) :
    (s.successful = 0 → s.failed = 0 → s.exit_code = exit_codes.CRITICAL_ERROR) ∧
    (0 < s.successful → s.failed = 0 → s.exit_code = exit_codes.SUCCESS) ∧
    (s.successful = 0 → 0 < s.failed → s.exit_code = exit_codes.CRITICAL_ERROR) ∧
    (0 < s.successful → 0 < s.failed → s.exit_code = exit_codes.PART_SUCCESS) ∧
    exit_codes.SUCCESS = 0 ∧ exit_codes.CRITICAL_ERROR = 1 ∧
    exit_codes.PART_SUCCESS = 2 := by
  obtain ⟨a, b⟩ := s
  cases a <;> cases b <;>
    simp [ProcessingSummary.exit_code, exit_codes.SUCCESS,
      exit_codes.CRITICAL_ERROR, exit_codes.PART_SUCCESS]

/-- Witness for C2 in the mixed quadrant: 2 successes and 1 failure give
the partial-success code 2. -/
theorem exit_code_quadrants_witness :
    (ProcessingSummary.mk 2 1).exit_code = exit_codes.PART_SUCCESS :=
  (exit_code_quadrants ⟨2, 1⟩).2.2.2.1 (by decide) (by decide)

/-! ## cli.rs and config.rs: thread-count validation -/

/-- Errors of cli.rs validation that the thread-count path can produce. -/
inductive ConfigError where
  | InvalidThreadCount (count max : Nat)
deriving DecidableEq

/-- Translation of AppConfig::default_thread_count from config.rs: the
available parallelism reported by the system, or 1 when the query fails.
The system value is passed in explicitly. -/
def default_thread_count (availableParallelism : Option Nat) : Nat :=
  availableParallelism.getD 1

/-- Translation of the thread-count arm of CliArgs::validate_and_normalize
from cli.rs: an explicit count must be nonzero and at most MAX_THREADS; a
missing count defaults to default_thread_count. -/
def validate_threads (threads : Option Nat) (availableParallelism : Option Nat) :
    Except ConfigError Nat :=
  match threads with
  | some count =>
    if count = 0 then .error (.InvalidThreadCount count MAX_THREADS)
    else if count > MAX_THREADS then .error (.InvalidThreadCount count MAX_THREADS)
    else .ok count
  | none => .ok (default_thread_count availableParallelism)

/-- C6 counterexample: on a machine reporting 64-way parallelism, omitting
the thread flag passes validation with 64 threads, which exceeds 32. -/
theorem validate_threads_default_unclamped :
    validate_threads none (some 64) = .ok 64 ∧ ¬(64 ≤ MAX_THREADS) := by
  constructor
  · rfl
  · decide

/-- C6 amended: every accepted thread count is at least 1 (the system
parallelism value is never zero), and every explicitly given accepted
count is at most MAX_THREADS = 32; the defaulted count is not clamped
above. -/
theorem validate_threads_bounds (threads availableParallelism : Option Nat) (n : Nat)
    (hap : ∀ m, availableParallelism = some m → 1 ≤ m)
    (h : validate_threads threads availableParallelism = .ok n) :
    1 ≤ n ∧ (∀ c, threads = some c → n ≤ MAX_THREADS) := by
  cases threads with
  | some c =>
    by_cases h0 : c = 0
    · rw [validate_threads, if_pos h0] at h
      exact absurd h (by simp)
    · by_cases hm : c > MAX_THREADS
      · rw [validate_threads, if_neg h0, if_pos hm] at h
        exact absurd h (by simp)
      · rw [validate_threads, if_neg h0, if_neg hm] at h
        have hn : c = n := by simpa using h
        subst hn
        exact ⟨Nat.one_le_iff_ne_zero.mpr h0, fun c h => Nat.le_of_not_lt hm⟩
  | none =>
    have hn : default_thread_count availableParallelism = n := by
      simpa [validate_threads] using h
    subst hn
    refine ⟨?_, by intro c h; exact absurd h (by simp)⟩
    cases availableParallelism with
    | none => simp [default_thread_count]
    | some m => simpa [default_thread_count] using hap m rfl

/-- Witness for the amended C6 at an explicit count of 4. -/
theorem validate_threads_bounds_witness :
    1 ≤ 4 ∧ (∀ c, (some 4 : Option Nat) = some c → 4 ≤ MAX_THREADS) :=
  validate_threads_bounds (some 4) none 4 (by intro m h; cases h) rfl

/-! ## error.rs: error types and their user-visible display strings -/

/-- Display of a path, Unix style, used in error messages. -/
def pathDisplay (p : RustPath) : String := String.intercalate "/" p

/-- File-system errors from error.rs. -/
inductive FileSystemError where
  | CannotReadDirectory (path : RustPath)
  | CannotAccessFile (path : RustPath)
  | FileNotFound (path : RustPath)
  | PermissionDenied (path : RustPath)
  | InsufficientSpace
deriving DecidableEq

/-- Display strings of FileSystemError, from its thiserror attributes. -/
def FileSystemError.display : FileSystemError → String
  | .CannotReadDirectory p => "Cannot read directory: " ++ pathDisplay p
  | .CannotAccessFile p => "Cannot access file: " ++ pathDisplay p
  | .FileNotFound p => "File not found: " ++ pathDisplay p
  | .PermissionDenied p => "Permission denied for path: " ++ pathDisplay p
  | .InsufficientSpace => "Disk full or insufficient space for output"

/-- FFmpeg errors from error.rs. -/
inductive FfmpegError where
  | ExecutionFailed (code : Int) (stderr command : String)
  | Timeout (seconds : Nat)
  | InvalidInputFormat (path : RustPath)
  | CannotSpawnProcess
  | StderrParsingFailed
deriving DecidableEq

/-- Display strings of FfmpegError, from its thiserror attributes. Note
that ExecutionFailed displays only the exit code: neither the stored
stderr nor the command reaches the message. -/
def FfmpegError.display : FfmpegError → String
  | .ExecutionFailed code _ _ =>
      "FFmpeg execution failed with exit code " ++ toString code
  | .Timeout s => "FFmpeg process timeout after " ++ toString s ++ " seconds"
  | .InvalidInputFormat p => "Invalid input file format: " ++ pathDisplay p
  | .CannotSpawnProcess => "Cannot spawn FFmpeg process"
  | .StderrParsingFailed => "FFmpeg stderr parsing failed"

/-! ## ffmpeg.rs: command construction and execution -/

/-- Constant FFMPEG_EXECUTABLE from config.rs. -/
def FFMPEG_EXECUTABLE : String := "ffmpeg"

/-- Constant FFMPEG_FILTER_COMPLEX from config.rs. -/
def FFMPEG_FILTER_COMPLEX : String :=
  "[0:v]scale=2276:1280,boxblur=4[bg];[1:v]scale=720:-1[fg];[bg][fg]overlay=(W-w)/2:(H-h)/2[tmp];[tmp]crop=720:1280:(2276-720)/2:0[out]"

/-- Translation of ffmpeg.rs build_ffmpeg_args. -/
def build_ffmpeg_args (input_path output_path : RustPath) : List String :=
  let input_str := pathDisplay input_path
  let output_str := pathDisplay output_path
  ["-i", input_str, "-i", input_str,
   "-filter_complex", FFMPEG_FILTER_COMPLEX,
   "-map", "[out]", "-map", "0:a", "-y", output_str]

/-- Translation of ffmpeg.rs build_ffmpeg_command_string. -/
def build_ffmpeg_command_string (input_path output_path : RustPath) : String :=
  FFMPEG_EXECUTABLE ++ " "
    ++ String.intercalate " " (build_ffmpeg_args input_path output_path)

/-- Translation of the ffmpeg.rs FfmpegCommand structure. -/
structure FfmpegCommand where
  input_path : RustPath
  output_path : RustPath
  command_string : String
deriving DecidableEq

/-- Translation of FfmpegCommand::new. -/
def FfmpegCommand.new (input_path output_path : RustPath) : FfmpegCommand :=
  ⟨input_path, output_path, build_ffmpeg_command_string input_path output_path⟩

/-- Translation of the ffmpeg.rs FfmpegExecutionResult structure. -/
structure FfmpegExecutionResult where
  success : Bool
  exit_code : Int
  stdout : String
  stderr : String
  duration : Duration
  command : String
deriving DecidableEq

/-- Translation of FfmpegExecutionResult::error_details. -/
def FfmpegExecutionResult.error_details (r : FfmpegExecutionResult) : Option String :=
  if !r.success && !(r.stderr == "") then some (extract_ffmpeg_error r.stderr)
  else none

/-- What the operating system did with the spawned ffmpeg process: an
input to the embedded execute_ffmpeg_command. A completed process reports
whether its exit status was success, its exit code when the status carries
one, and the captured stdout and stderr texts. -/
inductive ProcessOutcome where
  | waitFailed
  | timedOut
  | completed (statusSuccess : Bool) (code : Option Int) (stdout stderr : String)
deriving DecidableEq

/-- Translation of ffmpeg.rs execute_ffmpeg_command. The existence of the
input file, the success of output-directory creation, the success of the
spawn, and the behaviour of the spawned process are explicit parameters;
elapsed is the measured wall time. -/
def execute_ffmpeg_command (cmd : FfmpegCommand) (inputExists dirCreateOk spawnOk : Bool)
    (proc : ProcessOutcome) (elapsed : Duration) :
    Except FfmpegError FfmpegExecutionResult :=
  if !inputExists then .error (.InvalidInputFormat cmd.input_path)
  else if !dirCreateOk then .error .CannotSpawnProcess
  else if !spawnOk then .error .CannotSpawnProcess
  else
    match proc with
    | .waitFailed => .error .CannotSpawnProcess
    | .timedOut => .error (.Timeout (durationAsSecs FFMPEG_TIMEOUT))
    | .completed true code out err =>
        .ok ⟨true, code.getD 0, out, err, elapsed, cmd.command_string⟩
    | .completed false code _ err =>
        .error (.ExecutionFailed (code.getD (-1)) err cmd.command_string)

/-! ## worker.rs: tasks, results and the pool -/

/-- Translation of the utils.rs FileTask structure. -/
structure FileTask where
  input : RustPath
  output : RustPath
deriving DecidableEq

/-- Translation of the worker.rs TaskResult enum. -/
inductive TaskResult where
  | Success (input output : RustPath) (duration : Duration)
      (ffmpeg_result : FfmpegExecutionResult)
  | Failure (input : RustPath) (error : String) (duration : Duration)
deriving DecidableEq

/-- Translation of TaskResult::is_success. -/
def TaskResult.is_success : TaskResult → Bool
  | .Success _ _ _ _ => true
  | .Failure _ _ _ => false

/-- Translation of the worker.rs ProcessingResults structure. -/
structure ProcessingResults where
  successful : List TaskResult
  failed : List TaskResult
  total_duration : Duration
deriving DecidableEq

/-- Translation of ProcessingResults::empty. -/
def ProcessingResults.empty : ProcessingResults :=
  { successful := [], failed := [], total_duration := 0 }

/-- Translation of ProcessingResults::from_task_results: the source loop
pushes each result, in arrival order, onto the success list or the failure
list according to its constructor, which is an order-preserving split by
is_success. -/
def ProcessingResults.from_task_results (results : List TaskResult)
    (total_duration : Duration) : ProcessingResults :=
  { successful := results.filter TaskResult.is_success
    failed := results.filter (fun r => !r.is_success)
    total_duration := total_duration }

/-- Translation of worker.rs process_single_file. The outcomes of
task.validate, of validate_input_file and of execute_ffmpeg_command are
explicit parameters; dv is the elapsed time at a validation failure and d
the elapsed time after execution. -/
def process_single_file (task : FileTask) (vTask : Except FileSystemError Unit)
    (vInput : Except FfmpegError Unit)
    (exec : Except FfmpegError FfmpegExecutionResult)
    (dv d : Duration) : TaskResult :=
  match vTask with
  | .error e => .Failure task.input ("Task validation failed: " ++ e.display) dv
  | .ok _ =>
    match vInput with
    | .error e =>
        .Failure task.input ("Input file validation failed: " ++ e.display) dv
    | .ok _ =>
      match exec with
      | .ok r =>
        if r.success then
          .Success task.input task.output d r
        else
          .Failure task.input
            ("FFmpeg execution failed: " ++ (r.error_details.getD "Unknown error")) d
      | .error e => .Failure task.input ("FFmpeg error: " ++ e.display) d

/-- Result relation of WorkerPool::execute_tasks. An empty task list
returns ProcessingResults::empty before any channel or task is created.
Otherwise every spawned unit of work runs process_single_file exactly once
(its outcome is the oracle applied to its task) and sends exactly one
result over the fan-in channel, whose receiver is drained to completion;
only the arrival order is scheduler-dependent, so the collected list is
some permutation of the per-task results. -/
def ExecutesTo (outcome : FileTask → TaskResult) (tasks : List FileTask)
    (dur : Duration) (r : ProcessingResults) : Prop :=
  match tasks with
  | [] => r = ProcessingResults.empty
  | _ :: _ => ∃ arrivals : List TaskResult,
      arrivals.Perm (tasks.map outcome) ∧
      r = ProcessingResults.from_task_results arrivals dur

/-- Splitting a list by a Boolean predicate preserves total length. -/
theorem length_filter_split (l : List TaskResult) :
    (l.filter TaskResult.is_success).length
      + (l.filter (fun r => !r.is_success)).length = l.length := by
  induction l with
  | nil => rfl
  | cons a t ih =>
    cases h : a.is_success <;> simp [List.filter_cons, h] <;> omega

/-- C1: execute_tasks yields exactly one task result per submitted task:
the success and failure lists of the returned ProcessingResults always
have total length equal to the number of submitted tasks. -/
theorem execute_tasks_one_result_per_task (outcome : FileTask → TaskResult)
    (tasks : List FileTask) (dur : Duration) (r : ProcessingResults)
    (h : ExecutesTo outcome tasks dur r) :
    r.successful.length + r.failed.length = tasks.length := by
  cases tasks with
  | nil =>
    have hr : r = ProcessingResults.empty := h
    subst hr
    rfl
  | cons t ts =>
    obtain ⟨arrivals, hperm, hr⟩ := h
    subst hr
    show (arrivals.filter TaskResult.is_success).length
      + (arrivals.filter (fun r => !r.is_success)).length = (t :: ts).length
    rw [length_filter_split arrivals, hperm.length_eq, List.length_map]

/-- Witness for C1: one submitted task, one collected result. -/
theorem execute_tasks_one_result_per_task_witness :
    (ProcessingResults.from_task_results [TaskResult.Failure ["a.mp4"] "boom" 2] 3).successful.length
      + (ProcessingResults.from_task_results [TaskResult.Failure ["a.mp4"] "boom" 2] 3).failed.length
      = [FileTask.mk ["a.mp4"] ["out", "a-short.mp4"]].length :=
  execute_tasks_one_result_per_task
    (fun _ => TaskResult.Failure ["a.mp4"] "boom" 2)
    [FileTask.mk ["a.mp4"] ["out", "a-short.mp4"]] 3 _
    ⟨[TaskResult.Failure ["a.mp4"] "boom" 2], List.Perm.refl _, rfl⟩

/-- C3: a task whose external process exceeds the timeout gets the
TimeoutError classification: execute_ffmpeg_command returns the Timeout
error carrying the 600-second budget (10 minutes), and the task result
built from it is a Failure, never a Success, whose message is the timeout
message. -/
theorem timeout_yields_timeout_failure (task : FileTask) (dv d e : Duration) :
    FFMPEG_TIMEOUT = 10 * 60 * 1000 ∧
    execute_ffmpeg_command (FfmpegCommand.new task.input task.output) true true true
        ProcessOutcome.timedOut e
      = Except.error (FfmpegError.Timeout 600) ∧
    process_single_file task (Except.ok ()) (Except.ok ())
        (Except.error (FfmpegError.Timeout 600)) dv d
      = TaskResult.Failure task.input
          "FFmpeg error: FFmpeg process timeout after 600 seconds" d ∧
    (process_single_file task (Except.ok ()) (Except.ok ())
        (Except.error (FfmpegError.Timeout 600)) dv d).is_success = false :=
  ⟨rfl, rfl, rfl, rfl⟩

/-- C5, failing input: a process that completes with exit code 1 and
stderr "Error: broken output". The ExecutionFailed error carries the raw
stderr, not the extracted diagnostic, and the user-visible failure message
mentions only the exit code: the condensed diagnostic, which extraction
would produce, does not occur in it. -/
theorem nonzero_exit_message_lacks_diagnostic :
    execute_ffmpeg_command (FfmpegCommand.new ["in.mp4"] ["out", "in-short.mp4"])
        true true true
        (ProcessOutcome.completed false (some 1) "" "Error: broken output") 5
      = Except.error (FfmpegError.ExecutionFailed 1 "Error: broken output"
          (FfmpegCommand.new ["in.mp4"] ["out", "in-short.mp4"]).command_string) ∧
    extract_ffmpeg_error "Error: broken output" = "Error: broken output" ∧
    process_single_file (FileTask.mk ["in.mp4"] ["out", "in-short.mp4"])
        (Except.ok ()) (Except.ok ())
        (Except.error (FfmpegError.ExecutionFailed 1 "Error: broken output"
          (FfmpegCommand.new ["in.mp4"] ["out", "in-short.mp4"]).command_string)) 0 7
      = TaskResult.Failure ["in.mp4"]
          "FFmpeg error: FFmpeg execution failed with exit code 1" 7 ∧
    strContains "FFmpeg error: FFmpeg execution failed with exit code 1"
        (extract_ffmpeg_error "Error: broken output") = false :=
  ⟨rfl, by decide, rfl, by decide⟩

/-! ## worker.rs: the semaphore-bounded pool as a transition system -/

/-- Abstract state of one pool run: how many units of work still wait for
a permit, how many hold a permit (and with it an active external
invocation), and how many have finished and released their permit. -/
structure PoolState where
  waiting : Nat
  running : Nat
  finished : Nat
deriving DecidableEq

/-- Transitions of a pool run with n permits. A waiting unit acquires a
permit only when fewer than n are held (the tokio semaphore suspends it
otherwise); a running unit finishes and releases its permit
unconditionally, the permit being dropped at scope exit on every path. -/
inductive PoolStep (n : Nat) : PoolState → PoolState → Prop
  | acquire (w r f : Nat) : r < n → PoolStep n ⟨w + 1, r, f⟩ ⟨w, r + 1, f⟩
  | release (w r f : Nat) : PoolStep n ⟨w, r + 1, f⟩ ⟨w, r, f + 1⟩

/-- States reachable by a pool run with n permits and k submitted tasks,
starting with all k tasks waiting. -/
inductive PoolReachable (n k : Nat) : PoolState → Prop
  | init : PoolReachable n k ⟨k, 0, 0⟩
  | step {s t : PoolState} : PoolReachable n k s → PoolStep n s t →
      PoolReachable n k t

/-- C7: at no reachable point of a pool run do more than the configured
permit count of tasks hold an active external invocation. -/
theorem running_bounded_by_permits (n k : Nat) (s : PoolState)
    (h : PoolReachable n k s) : s.running ≤ n := by
  induction h with
  | init => exact Nat.zero_le n
  | step hs hst ih =>
    cases hst with
    | acquire w r f hr => exact hr
    | release w r f => exact Nat.le_of_succ_le ih

/-- Witness for C7 at the initial state of a run with 4 permits and 10
tasks. -/
theorem running_bounded_by_permits_witness :
    (PoolState.mk 10 0 0).running ≤ 4 :=
  running_bounded_by_permits 4 10 ⟨10, 0, 0⟩ PoolReachable.init

/-- In a pool run with zero submitted tasks no transition is possible:
every reachable state is the initial one. -/
theorem poolReachable_zero_tasks (n : Nat) (s : PoolState)
    (h : PoolReachable n 0 s) : s = ⟨0, 0, 0⟩ := by
  induction h with
  | init => rfl
  | step hs hst ih =>
    cases hst with
    | acquire w r f hr =>
      have hw : w + 1 = 0 := congrArg PoolState.waiting ih
      exact absurd hw (Nat.succ_ne_zero w)
    | release w r f =>
      have hr : r + 1 = 0 := congrArg PoolState.running ih
      exact absurd hr (Nat.succ_ne_zero r)

/-- C8: on the empty task list execute_tasks returns the empty result: no
successes, no failures, zero total duration; and no permit is ever
acquired during such a run. -/
theorem execute_tasks_empty_input (outcome : FileTask → TaskResult)
    (dur : Duration) (r : ProcessingResults)
    (h : ExecutesTo outcome [] dur r) :
    r = ProcessingResults.empty ∧ r.successful = [] ∧ r.failed = [] ∧
    r.total_duration = 0 ∧
    (∀ n s, PoolReachable n 0 s → s.running = 0 ∧ s.finished = 0) := by
  have hr : r = ProcessingResults.empty := h
  subst hr
  refine ⟨rfl, rfl, rfl, rfl, ?_⟩
  intro n s hs
  have hz := poolReachable_zero_tasks n s hs
  subst hz
  exact ⟨rfl, rfl⟩

/-- Witness for C8 at a concrete oracle and duration. -/
theorem execute_tasks_empty_input_witness :
    ProcessingResults.empty = ProcessingResults.empty ∧
    ProcessingResults.empty.successful = [] ∧
    ProcessingResults.empty.failed = [] ∧
    ProcessingResults.empty.total_duration = 0 ∧
    (∀ n s, PoolReachable n 0 s → s.running = 0 ∧ s.finished = 0) :=
  execute_tasks_empty_input (fun t => TaskResult.Failure t.input "e" 0) 5
    ProcessingResults.empty rfl
